import Mathlib

/-!
Verification of the eddylicious conversion and rescaling scripts.

The development shallowly embeds the two scripts under src/bin
(convertFoamFileToHDF5.py and runModLundRescaling.py).  Values read from
text files are modelled as exact rationals, numpy arrays as lists or
index functions, and Python control flow as explicit case analysis.
Library functions imported from the eddylicious package whose bodies are
not part of the two scripts are modelled from the specification and are
marked as such in their doc comments.
-/

/-! ## Python primitives used by the scripts -/

/-- Exceptions relevant to the converter script: numpy out-of-bounds
column access raises IndexError, and indexing a Python str with a tuple
raises TypeError. -/
inductive PyError where
  | indexError : PyError
  | typeError : PyError
deriving DecidableEq

/-- Accessing column j of a 2-D numpy array with cols columns
(uMean[:, j]): succeeds exactly when j is in bounds. -/
def uMeanColumnAccess (cols j : Nat) : Except PyError Unit :=
  if j < cols then Except.ok () else Except.error PyError.indexError

/-- Indexing a Python str with the tuple (slice, 0), as in the
expression uMeanFile[:, 0] on line 76 of convertFoamFileToHDF5.py,
always raises TypeError. -/
def strTupleIndex : Except PyError Unit :=
  Except.error PyError.typeError

/-- Result of the uMeanY assignment in the converter: either a column
of the profile array (by 0-based column index) or an array of zeros. -/
inductive UMeanYValue where
  | fromColumnIndex : Nat → UMeanYValue
  | zeros : UMeanYValue
deriving DecidableEq

/-- Lines 71-74 of convertFoamFileToHDF5.py: if uMean.shape[1] == 2 the
script evaluates uMean[:, 2], otherwise it assigns zeros. -/
def uMeanYAssignment (cols : Nat) : Except PyError UMeanYValue :=
  if cols = 2 then
    match uMeanColumnAccess cols 2 with
    | Except.ok _ => Except.ok (UMeanYValue.fromColumnIndex 2)
    | Except.error e => Except.error e
  else
    Except.ok UMeanYValue.zeros

/-- Lines 69-76 of convertFoamFileToHDF5.py, for a mean-profile file
read by np.genfromtxt as a 2-D array with cols columns: uMeanX takes
column 1, uMeanY is assigned per uMeanYAssignment, and then the script
evaluates np.genfromtxt(uMeanFile[:, 0]) where uMeanFile is a str.
Returning Except.ok means reaching the point-reading stage (line 79). -/
def converterMeanStage (cols : Nat) : Except PyError Unit :=
  match uMeanColumnAccess cols 1 with
  | Except.error e => Except.error e
  | Except.ok _ =>
    match uMeanYAssignment cols with
    | Except.error e => Except.error e
    | Except.ok _ => strTupleIndex

/-- Module name Python assigns when a file is executed as a script. -/
def moduleNameWhenRunAsScript : String := "__main__"

/-- String literal the entry guard of convertFoamFileToHDF5.py (line
153) compares the module name against; it carries a leading space. -/
def converterEntryGuardString : String := " __main__"

/-- Whether running convertFoamFileToHDF5.py as a script invokes
main(): the guard is the equality test of line 153. -/
def converterMainInvoked : Bool :=
  moduleNameWhenRunAsScript == converterEntryGuardString

/-- Total element count of a 2-D numpy array (the .size attribute). -/
def numpyArraySize (rows cols : Nat) : Nat := rows * cols

/-- Line 85 of convertFoamFileToHDF5.py: the assertion
nPointsY == uMean.size, where uMean is the 2-D array with the given
rows and cols read from the mean-profile file. -/
def converterAssertion (nPointsY rows cols : Nat) : Bool :=
  nPointsY == numpyArraySize rows cols

/-! ## Chunk partitioner

The converter calls chunks_and_offsets(nProcs, len(times)) on line 124;
the body of that function lives in the eddylicious package, outside the
two scripts, so it is modelled from the specification. -/

/-- Modelled from the spec: the size of the chunk of worker k produced by
chunks_and_offsets, absent from src/ (only its call site is).  Sizes
are floor(n/p) with the remainder n mod p given to the first
n mod p workers. -/
def chunkSize (p n k : Nat) : Nat :=
  n / p + if k < n % p then 1 else 0

/-- Modelled from the spec: the offset of the chunk of worker k produced by
chunks_and_offsets, absent from src/.  It satisfies the recurrence
offset 0 = 0, offset (k+1) = offset k + chunkSize k. -/
def chunkOffset (p n k : Nat) : Nat :=
  k * (n / p) + min k (n % p)

/-- Modelled from the spec: chunks_and_offsets, absent from src/.
Returns the list of chunk sizes and the list of offsets for p workers
and n items. -/
def chunks_and_offsets (p n : Nat) : List Nat × List Nat :=
  ((List.range p).map (chunkSize p n), (List.range p).map (chunkOffset p n))

theorem chunkOffset_zero (p n : Nat) : chunkOffset p n 0 = 0 := by
  simp [chunkOffset]

theorem chunkOffset_succ (p n k : Nat) :
    chunkOffset p n (k + 1) = chunkOffset p n k + chunkSize p n k := by
  unfold chunkOffset chunkSize
  rcases Nat.lt_or_ge k (n % p) with h | h
  · rw [if_pos h]
    have h1 : min k (n % p) = k := Nat.min_eq_left (Nat.le_of_lt h)
    have h2 : min (k + 1) (n % p) = k + 1 := Nat.min_eq_left h
    rw [h1, h2]
    ring
  · rw [if_neg (Nat.not_lt.mpr h)]
    have h1 : min k (n % p) = n % p := Nat.min_eq_right h
    have h2 : min (k + 1) (n % p) = n % p :=
      Nat.min_eq_right (Nat.le_succ_of_le h)
    rw [h1, h2]
    ring

theorem chunkOffset_mono (p n : Nat) {k l : Nat} (h : k ≤ l) :
    chunkOffset p n k ≤ chunkOffset p n l := by
  unfold chunkOffset
  exact Nat.add_le_add (Nat.mul_le_mul_right _ h)
    (min_le_min h (Nat.le_refl _))

theorem chunkOffset_last (p n : Nat) (hp : 0 < p) : chunkOffset p n p = n := by
  unfold chunkOffset
  have h1 : min p (n % p) = n % p :=
    Nat.min_eq_right (Nat.le_of_lt (Nat.mod_lt n hp))
  rw [h1]
  exact Nat.div_add_mod n p

theorem chunkOffset_eq_partial_sum (p n k : Nat) :
    ((List.range k).map (chunkSize p n)).sum = chunkOffset p n k := by
  induction k with
  | zero => simp [chunkOffset_zero]
  | succ k ih =>
      rw [List.range_succ, List.map_append, List.sum_append,
        chunkOffset_succ, ih]
      simp

theorem map_range_getD {α : Type} (p k : Nat) (f : Nat → α) (d : α)
    (hk : k < p) : ((List.range p).map f).getD k d = f k := by
  have hlen : k < ((List.range p).map f).length := by
    simpa using hk
  rw [List.getD_eq_getElem _ _ hlen, List.getElem_map, List.getElem_range]

theorem chunkSize_le_succ (p n k j : Nat) :
    chunkSize p n k ≤ chunkSize p n j + 1 := by
  unfold chunkSize
  rcases Nat.lt_or_ge k (n % p) with h | h
  · rw [if_pos h]; omega
  · rw [if_neg (Nat.not_lt.mpr h)]; omega

theorem chunkSize_floor_or_ceil (p n k : Nat) (hp : 0 < p) :
    chunkSize p n k = n / p ∨ chunkSize p n k = (n + p - 1) / p := by
  unfold chunkSize
  rcases Nat.lt_or_ge k (n % p) with h | h
  · right
    rw [if_pos h]
    have hr : 0 < n % p := Nat.lt_of_le_of_lt (Nat.zero_le k) h
    have hrp : n % p < p := Nat.mod_lt n hp
    have hn : p * (n / p) + n % p = n := Nat.div_add_mod n p
    have hle : n / p + 1 ≤ (n + p - 1) / p := by
      rw [Nat.le_div_iff_mul_le hp]
      calc (n / p + 1) * p = p * (n / p) + p := by ring
        _ ≤ n + p - 1 := by omega
    have hlt : (n + p - 1) / p < n / p + 2 := by
      rw [Nat.div_lt_iff_lt_mul hp]
      calc n + p - 1 < p * (n / p) + n % p + p := by omega
        _ ≤ (n / p + 2) * p := by
            have : n % p ≤ p := Nat.le_of_lt hrp
            calc p * (n / p) + n % p + p ≤ p * (n / p) + p + p := by omega
              _ = (n / p + 2) * p := by ring
    omega
  · left
    rw [if_neg (Nat.not_lt.mpr h)]
    omega

theorem chunkSize_remainder (p n k : Nat) :
    chunkSize p n k = n / p + 1 ↔ k < n % p := by
  unfold chunkSize
  rcases Nat.lt_or_ge k (n % p) with h | h
  · rw [if_pos h]; simp [h]
  · rw [if_neg (Nat.not_lt.mpr h)]
    constructor
    · intro hc; omega
    · intro hc; omega

theorem chunk_cover (p n m : Nat) (hp : 0 < p) (hm : m < n) :
    ∃! k, k < p ∧ chunkOffset p n k ≤ m ∧
      m < chunkOffset p n k + chunkSize p n k := by
  classical
  set Q : Nat → Prop := fun k => chunkOffset p n k ≤ m with hQ
  set K := Nat.findGreatest Q p with hK
  have h0 : Q 0 := by
    rw [hQ]; simp only [chunkOffset_zero]; exact Nat.zero_le m
  have hKle : K ≤ p := Nat.findGreatest_le p
  have hKspec : Q K := Nat.findGreatest_spec (Nat.zero_le p) h0
  have hKspec2 : chunkOffset p n K ≤ m := hKspec
  have hKlt : K < p := by
    rcases Nat.lt_or_ge K p with h | h
    · exact h
    · exfalso
      have hKp : K = p := Nat.le_antisymm hKle h
      rw [hKp, chunkOffset_last p n hp] at hKspec2
      omega
  have hKnext : m < chunkOffset p n (K + 1) := by
    by_contra hc
    push_neg at hc
    have hQc : Q (K + 1) := hc
    exact Nat.findGreatest_is_greatest (Nat.lt_succ_self K) hKlt hQc
  rw [chunkOffset_succ] at hKnext
  refine ⟨K, ⟨hKlt, hKspec2, hKnext⟩, ?_⟩
  intro j hj
  rcases hj with ⟨hjp, hjle, hjlt⟩
  by_contra hne
  rcases Nat.lt_or_ge j K with h | h
  · have hstep : chunkOffset p n (j + 1) ≤ chunkOffset p n K :=
      chunkOffset_mono p n h
    rw [chunkOffset_succ] at hstep
    omega
  · have hjK : K < j := by omega
    have hstep : chunkOffset p n (K + 1) ≤ chunkOffset p n j :=
      chunkOffset_mono p n hjK
    rw [chunkOffset_succ] at hstep
    omega

/-- C1: chunks_and_offsets returns arrays of length P whose sizes sum to
N, whose offsets start at 0 and satisfy the prefix-sum recurrence, whose
sizes differ by at most one and equal floor(N/P) or ceil(N/P) with the
remainder N mod P granted to the first N mod P workers, and whose
(offset, size) ranges cover [0, N) exactly once. -/
theorem chunks_and_offsets_spec (p n : Nat) (hp : 0 < p) :
    (chunks_and_offsets p n).1.length = p ∧
    (chunks_and_offsets p n).2.length = p ∧
    (chunks_and_offsets p n).1.sum = n ∧
    (chunks_and_offsets p n).2.getD 0 0 = 0 ∧
    (∀ k, 1 ≤ k → k < p →
      (chunks_and_offsets p n).2.getD k 0 =
        (chunks_and_offsets p n).2.getD (k - 1) 0 +
          (chunks_and_offsets p n).1.getD (k - 1) 0) ∧
    (∀ k, k < p → (chunks_and_offsets p n).1.getD k 0 = n / p ∨
      (chunks_and_offsets p n).1.getD k 0 = (n + p - 1) / p) ∧
    (∀ k j, k < p → j < p →
      (chunks_and_offsets p n).1.getD k 0 ≤
        (chunks_and_offsets p n).1.getD j 0 + 1) ∧
    (∀ k, k < p →
      ((chunks_and_offsets p n).1.getD k 0 = n / p + 1 ↔ k < n % p)) ∧
    (∀ m, m < n → ∃! k, k < p ∧
      (chunks_and_offsets p n).2.getD k 0 ≤ m ∧
      m < (chunks_and_offsets p n).2.getD k 0 +
        (chunks_and_offsets p n).1.getD k 0) := by
  unfold chunks_and_offsets
  refine ⟨by simp, by simp, ?_, ?_, ?_, ?_, ?_, ?_, ?_⟩
  · rw [chunkOffset_eq_partial_sum p n p]
    exact chunkOffset_last p n hp
  · rw [map_range_getD p 0 _ 0 hp, chunkOffset_zero]
  · intro k hk1 hkp
    rw [map_range_getD p k _ 0 hkp,
      map_range_getD p (k - 1) _ 0 (by omega),
      map_range_getD p (k - 1) _ 0 (by omega)]
    have hk : k - 1 + 1 = k := by omega
    have hs := chunkOffset_succ p n (k - 1)
    rw [hk] at hs
    rw [hs]
  · intro k hk
    rw [map_range_getD p k _ 0 hk]
    exact chunkSize_floor_or_ceil p n k hp
  · intro k j hk hj
    rw [map_range_getD p k _ 0 hk, map_range_getD p j _ 0 hj]
    exact chunkSize_le_succ p n k j
  · intro k hk
    rw [map_range_getD p k _ 0 hk]
    exact chunkSize_remainder p n k
  · intro m hm
    have h := chunk_cover p n m hp hm
    rcases h with ⟨k, ⟨hkp, hkle, hklt⟩, huniq⟩
    refine ⟨k, ⟨hkp, ?_, ?_⟩, ?_⟩
    · rw [map_range_getD p k _ 0 hkp]; exact hkle
    · rw [map_range_getD p k _ 0 hkp, map_range_getD p k _ 0 hkp]; exact hklt
    · intro j hj
      rcases hj with ⟨hjp, hjle, hjlt⟩
      rw [map_range_getD p j _ 0 hjp] at hjle
      rw [map_range_getD p j _ 0 hjp, map_range_getD p j _ 0 hjp] at hjlt
      exact huniq j ⟨hjp, hjle, hjlt⟩

/-- C1 witness: the partition property instantiated at P = 3 workers
and N = 7 items. -/
theorem chunks_and_offsets_spec_witness :
    0 < 3 ∧
    ((chunks_and_offsets 3 7).1.length = 3 ∧
    (chunks_and_offsets 3 7).2.length = 3 ∧
    (chunks_and_offsets 3 7).1.sum = 7 ∧
    (chunks_and_offsets 3 7).2.getD 0 0 = 0 ∧
    (∀ k, 1 ≤ k → k < 3 →
      (chunks_and_offsets 3 7).2.getD k 0 =
        (chunks_and_offsets 3 7).2.getD (k - 1) 0 +
          (chunks_and_offsets 3 7).1.getD (k - 1) 0) ∧
    (∀ k, k < 3 → (chunks_and_offsets 3 7).1.getD k 0 = 7 / 3 ∨
      (chunks_and_offsets 3 7).1.getD k 0 = (7 + 3 - 1) / 3) ∧
    (∀ k j, k < 3 → j < 3 →
      (chunks_and_offsets 3 7).1.getD k 0 ≤
        (chunks_and_offsets 3 7).1.getD j 0 + 1) ∧
    (∀ k, k < 3 →
      ((chunks_and_offsets 3 7).1.getD k 0 = 7 / 3 + 1 ↔ k < 7 % 3)) ∧
    (∀ m, m < 7 → ∃! k, k < 3 ∧
      (chunks_and_offsets 3 7).2.getD k 0 ≤ m ∧
      m < (chunks_and_offsets 3 7).2.getD k 0 +
        (chunks_and_offsets 3 7).1.getD k 0)) :=
  ⟨by decide, chunks_and_offsets_spec 3 7 (by decide)⟩

/-! ## Claims C2, C3, C7, C8 about the converter script -/

/-- C2: executing convertFoamFileToHDF5.py as a script never invokes
main(), because the entry guard compares the module name against the
string with a leading space, which differs from the name Python assigns
to a script. -/
theorem converter_entry_guard_never_runs_main :
    converterMainInvoked = false := by decide

theorem converterMeanStage_eq (cols : Nat) :
    converterMeanStage cols =
      if cols = 2 then Except.error PyError.indexError
      else if 1 < cols then Except.error PyError.typeError
      else Except.error PyError.indexError := by
  rcases Nat.lt_trichotomy cols 2 with h | h | h
  · have h1 : ¬ (1 < cols) := by omega
    have h2 : ¬ (cols = 2) := by omega
    simp [converterMeanStage, uMeanColumnAccess, uMeanYAssignment,
      strTupleIndex, h1, h2]
  · subst h
    rfl
  · have h1 : 1 < cols := by omega
    have h2 : ¬ (cols = 2) := by omega
    simp [converterMeanStage, uMeanColumnAccess, uMeanYAssignment,
      strTupleIndex, h1, h2]

/-- C3: whenever the mean-profile file is read as a 2-D array, the
main() of the converter raises before the point-reading and HDF5-writing
stages: IndexError at uMean[:, 2] for a two-column file, TypeError at
np.genfromtxt(uMeanFile[:, 0]) for three or more columns, and in no
case does the stage return successfully. -/
theorem converter_mean_stage_always_raises (cols : Nat) :
    (cols = 2 → converterMeanStage cols = Except.error PyError.indexError) ∧
    (3 ≤ cols → converterMeanStage cols = Except.error PyError.typeError) ∧
    converterMeanStage cols ≠ Except.ok () := by
  rw [converterMeanStage_eq]
  refine ⟨?_, ?_, ?_⟩
  · intro h
    simp [h]
  · intro h
    have h1 : ¬ (cols = 2) := by omega
    have h2 : 1 < cols := by omega
    simp [h1, h2]
  · rcases Nat.decEq cols 2 with h | h
    · rcases Nat.lt_or_ge 1 cols with h1 | h1
      · simp [h, h1]
      · simp [h, Nat.not_lt.mpr h1]
    · simp [h]

/-- C3 witness: a two-column file raises IndexError and a three-column
file raises TypeError. -/
theorem converter_mean_stage_always_raises_witness :
    converterMeanStage 2 = Except.error PyError.indexError ∧
    converterMeanStage 3 = Except.error PyError.typeError :=
  ⟨(converter_mean_stage_always_raises 2).1 rfl,
   (converter_mean_stage_always_raises 3).2.1 (by decide)⟩

/-- C7 (code bug): the converter crashes on the documented two-column
mean-profile file (IndexError evaluating uMean[:, 2], because the
column-count test is inverted) and, for a three-column file, assigns
zeros to uMeanY instead of reading the third column. -/
theorem converter_two_column_file_rejected :
    converterMeanStage 2 = Except.error PyError.indexError ∧
    uMeanYAssignment 2 = Except.error PyError.indexError ∧
    uMeanYAssignment 3 = Except.ok UMeanYValue.zeros := ⟨rfl, rfl, rfl⟩

/-- C8 counterexample: with a grid of 8 wall-normal points and a
mean-profile file of 4 rows and 2 columns, the point count differs from
the profile length (8 vs 4), yet the assertion of line 85 passes,
because it compares against uMean.size = rows * cols = 8. -/
theorem converter_assertion_mismatch_cex :
    converterAssertion 8 4 2 = true ∧ (8 : Nat) ≠ 4 := by decide

/-- C8 (amended): the assertion on line 85 of the converter compares
nPointsY with the total element count rows * cols of the 2-D
mean-profile array, not with its row count; it passes exactly when
nPointsY equals rows * cols. -/
theorem converter_assertion_checks_total_size (nPointsY rows cols : Nat) :
    converterAssertion nPointsY rows cols = true ↔ nPointsY = rows * cols := by
  simp [converterAssertion, numpyArraySize]

/-! ## The rescaling driver runModLundRescaling.py -/

/-- Exit status of the Python process after sys.exit(arg): the argument
None (modelled as Option.none) yields status 0. -/
def pyExitStatus (arg : Option Int) : Int := arg.getD 0

/-- Outcome of the validation stage of the driver: either the process
terminates via sys.exit with the given status, or execution proceeds. -/
inductive DriverStep where
  | exitStatus : Int → DriverStep
  | proceed : DriverStep
deriving DecidableEq

/-- Validation stage of runModLundRescaling.py, in source order: the
reader checks of lines 56-60, 64-69, 77-85 and 90-96, the inflow-reader
check of lines 101-108, the delta99 sanity check of lines 185-188, and
the writer dispatch of lines 198-224.  Every failing branch prints a
message and calls the argument-less exit() imported from sys. -/
def driverValidation (reader inflowReader writer : String)
    (deltaInfl yInflLast : ℚ) : DriverStep :=
  if reader ≠ "foamFile" then DriverStep.exitStatus (pyExitStatus none)
  else if inflowReader ≠ "foamFile" then DriverStep.exitStatus (pyExitStatus none)
  else if deltaInfl > yInflLast then DriverStep.exitStatus (pyExitStatus none)
  else if writer = "tvmfv" ∨ writer = "hdf5" then DriverStep.proceed
  else DriverStep.exitStatus (pyExitStatus none)

/-- C5 counterexample: a configuration with an unknown reader fails
validation, yet the process terminates with exit status 0, because the
driver calls the argument-less exit() from sys; the claimed non-zero
status is therefore false for this input. -/
theorem driver_unknown_reader_exits_zero :
    driverValidation "csv" "foamFile" "hdf5" 1 2 =
      DriverStep.exitStatus 0 := by
  simp [driverValidation, pyExitStatus]

/-- C5 (amended): every configuration that fails validation (unknown
reader, unknown inflow reader, delta99 beyond the grid extent, or
unknown writer) makes the driver report the error and terminate, but
with exit status zero, since sys.exit is called without an argument. -/
theorem driver_validation_failure_exits_zero (reader inflowReader writer : String)
    (deltaInfl yInflLast : ℚ)
    (hfail : driverValidation reader inflowReader writer deltaInfl yInflLast ≠
      DriverStep.proceed) :
    driverValidation reader inflowReader writer deltaInfl yInflLast =
      DriverStep.exitStatus 0 := by
  unfold driverValidation at hfail ⊢
  split
  · rfl
  · split
    · rfl
    · split
      · rfl
      · split
        · rename_i h1 h2 h3 h4
          exfalso
          apply hfail
          rw [if_neg h1, if_neg h2, if_neg h3, if_pos h4]
        · rfl

/-- C5 witness: the unknown-reader configuration fails validation and
the driver terminates with status zero. -/
theorem driver_validation_failure_exits_zero_witness :
    driverValidation "csv" "foamFile" "hdf5" 1 2 =
      DriverStep.exitStatus 0 :=
  driver_validation_failure_exits_zero "csv" "foamFile" "hdf5" 1 2
    (by simp [driverValidation, pyExitStatus])

/-! ## Linear interpolation and the rescaling transform -/

/-- Linear interpolation in the style of numpy.interp over a list of
(coordinate, value) pairs with increasing coordinates: a query at or
below the first coordinate returns the first value, a query beyond the
last coordinate returns the last value (the clamping policy of spec
section 4.3), and a query between two nodes interpolates linearly. -/
def npInterp : List (ℚ × ℚ) → ℚ → ℚ
  | [], _ => 0
  | [p], _ => p.2
  | p :: q :: rest, x =>
    if x ≤ p.1 then p.2
    else if x ≤ q.1 then p.2 + (q.2 - p.2) * (x - p.1) / (q.1 - p.1)
    else npInterp (q :: rest) x

theorem npInterp_node (l : List (ℚ × ℚ))
    (hmono : List.Pairwise (fun a b => a.1 < b.1) l)
    (k : Nat) (hk : k < l.length) :
    npInterp l (l.getD k (0, 0)).1 = (l.getD k (0, 0)).2 := by
  induction l generalizing k with
  | nil => simp at hk
  | cons p tail ih =>
    cases tail with
    | nil =>
      have hk0 : k = 0 := by
        simp at hk
        omega
      subst hk0
      rfl
    | cons q rest =>
      rcases List.pairwise_cons.mp hmono with ⟨hhead, htail⟩
      cases k with
      | zero =>
        show npInterp (p :: q :: rest) p.1 = p.2
        simp [npInterp]
      | succ j =>
        have hjlen : j < (q :: rest).length := by
          simp at hk
          simpa using hk
        have hmem : (q :: rest).getD j (0, 0) ∈ q :: rest := by
          rw [List.getD_eq_getElem _ _ hjlen]
          exact List.getElem_mem hjlen
        have hplt : p.1 < ((q :: rest).getD j (0, 0)).1 := hhead _ hmem
        show npInterp (p :: q :: rest) ((q :: rest).getD j (0, 0)).1 = _
        rw [show npInterp (p :: q :: rest) ((q :: rest).getD j (0, 0)).1 =
          (if ((q :: rest).getD j (0, 0)).1 ≤ p.1 then p.2
           else if ((q :: rest).getD j (0, 0)).1 ≤ q.1 then
             p.2 + (q.2 - p.2) * (((q :: rest).getD j (0, 0)).1 - p.1) /
               (q.1 - p.1)
           else npInterp (q :: rest) ((q :: rest).getD j (0, 0)).1) from rfl]
        rw [if_neg (not_le.mpr hplt)]
        cases j with
        | zero =>
          have hq : ((q :: rest).getD 0 (0, 0)) = q := rfl
          rw [hq] at hplt ⊢
          rw [if_pos (le_refl q.1)]
          have hne : q.1 - p.1 ≠ 0 := by
            intro hc
            have : q.1 = p.1 := by linarith
            exact absurd this (ne_of_gt hplt)
          field_simp
        | succ i =>
          rcases List.pairwise_cons.mp htail with ⟨hhead2, _⟩
          have hilen : i < rest.length := by
            simpa using hjlen
          have hmem2 : rest.getD i (0, 0) ∈ rest := by
            rw [List.getD_eq_getElem _ _ hilen]
            exact List.getElem_mem hilen
          have hqlt : q.1 < ((q :: rest).getD (i + 1) (0, 0)).1 := by
            have : (q :: rest).getD (i + 1) (0, 0) = rest.getD i (0, 0) := rfl
            rw [this]
            exact hhead2 _ hmem2
          rw [if_neg (not_le.mpr hqlt)]
          exact ih htail (i + 1) hjlen

theorem zip_getD (xs ys : List ℚ) (k : Nat) (hx : k < xs.length)
    (hy : k < ys.length) :
    (xs.zip ys).getD k (0, 0) = (xs.getD k 0, ys.getD k 0) := by
  have hz : k < (xs.zip ys).length := by
    rw [List.length_zip]
    omega
  rw [List.getD_eq_getElem _ _ hz, List.getElem_zip,
    List.getD_eq_getElem _ _ hx, List.getD_eq_getElem _ _ hy]

theorem npInterp_zip_node (xs ys : List ℚ)
    (hmono : List.Pairwise (fun a b : ℚ => a < b) xs)
    (hlen : xs.length = ys.length) (k : Nat) (hk : k < xs.length) :
    npInterp (xs.zip ys) (xs.getD k 0) = ys.getD k 0 := by
  have hmapfst : (xs.zip ys).map Prod.fst = xs :=
    List.map_fst_zip xs ys (le_of_eq hlen)
  have hz : List.Pairwise (fun a b : ℚ × ℚ => a.1 < b.1) (xs.zip ys) := by
    rw [← List.pairwise_map]
    rw [hmapfst]
    exact hmono
  have hklen : k < (xs.zip ys).length := by
    rw [List.length_zip]
    omega
  have hnode := npInterp_node (xs.zip ys) hz k hklen
  rw [zip_getD xs ys k hk (hlen ▸ hk)] at hnode
  exact hnode

/-- Modelled from the spec: mod_lund_rescale_mean_velocity, absent from
src/ (only its call on lines 226-229 of runModLundRescaling.py is).
Streamwise component of the rescaled mean profile at wall-normal inflow
index k, following spec section 4.3: below nInner the inner-scaled
interpolated precursor velocity, below nInfl a blend of the inner and
outer values with blending weight w k, and from nInfl on the freestream
value Ue; the interpolated precursor velocity is scaled by gamma, and
the mean value is corrected by the ratio of the freestream velocities
so that the precursor freestream U0 maps to the target freestream Ue.
The spanwise point count nPointsZInfl only controls broadcasting along
z and does not affect the profile. -/
def mod_lund_rescale_mean_velocity (etaPrec yPlusPrec uMean : List ℚ)
    (nInfl nInner : Nat) (etaInfl yPlusInfl : List ℚ)
    (nPointsZInfl : Nat) (Ue U0 gamma : ℚ) (w : Nat → ℚ) (k : Nat) : ℚ :=
  let innerVal := gamma * (Ue / U0) *
    npInterp (yPlusPrec.zip uMean) (yPlusInfl.getD k 0)
  let outerVal := gamma * (Ue / U0) *
    npInterp (etaPrec.zip uMean) (etaInfl.getD k 0)
  if k < nInner then innerVal
  else if k < nInfl then (1 - w k) * innerVal + w k * outerVal
  else Ue

/-- C10 counterexample: with gamma = 1 and identical precursor and
inflow grids, but target freestream Ue = 2 differing from the precursor
freestream U0 = 1, the rescaled profile at index 1 (inside nInfl = 2)
is 2 while the precursor profile value is 1: without equal freestream
velocities the transform is not the identity. -/
theorem rescale_not_identity_differing_freestreams :
    mod_lund_rescale_mean_velocity [0, 1] [0, 1] [0, 1] 2 1 [0, 1] [0, 1]
      4 2 1 1 (fun _ => 1 / 2) 1 = 2 ∧
    ([0, 1] : List ℚ).getD 1 0 = 1 ∧ (2 : ℚ) ≠ 1 := by
  refine ⟨?_, by norm_num, by norm_num⟩
  norm_num [mod_lund_rescale_mean_velocity, npInterp, List.zip]

/-- C10 (amended): the rescaling transform is the identity on the
precursor profile when no rescaling is requested: if gamma = 1, the
inflow grids equal the (strictly increasing) precursor grids, and the
freestream velocities agree (Ue = U0, nonzero), then the rescaled
profile equals the precursor profile, exactly, at every index below
nInfl that is in range. -/
theorem rescale_identity_on_matching_grids (etaPrec yPlusPrec uMean : List ℚ)
    (nInfl nInner nZ : Nat) (Ue U0 : ℚ) (w : Nat → ℚ) (k : Nat)
    (hU0 : U0 ≠ 0) (hUeU0 : Ue = U0)
    (hm1 : List.Pairwise (fun a b : ℚ => a < b) etaPrec)
    (hm2 : List.Pairwise (fun a b : ℚ => a < b) yPlusPrec)
    (hl1 : etaPrec.length = uMean.length)
    (hl2 : yPlusPrec.length = uMean.length)
    (hk : k < nInfl) (hkl : k < uMean.length) :
    mod_lund_rescale_mean_velocity etaPrec yPlusPrec uMean nInfl nInner
      etaPrec yPlusPrec nZ Ue U0 1 w k = uMean.getD k 0 := by
  have hinner : npInterp (yPlusPrec.zip uMean) (yPlusPrec.getD k 0) =
      uMean.getD k 0 :=
    npInterp_zip_node yPlusPrec uMean hm2 hl2 k (by omega)
  have houter : npInterp (etaPrec.zip uMean) (etaPrec.getD k 0) =
      uMean.getD k 0 :=
    npInterp_zip_node etaPrec uMean hm1 hl1 k (by omega)
  unfold mod_lund_rescale_mean_velocity
  rw [hinner, houter, hUeU0, div_self hU0]
  rcases Nat.lt_or_ge k nInner with h | h
  · rw [if_pos h]
    ring
  · rw [if_neg (Nat.not_lt.mpr h), if_pos hk]
    ring

/-- C10 witness: the identity property instantiated on the concrete
two-point grid 0, 1 with profile values 3, 5, equal freestream
velocities, and blending weight one half. -/
theorem rescale_identity_on_matching_grids_witness :
    (7 : ℚ) ≠ 0 ∧ (7 : ℚ) = 7 ∧
    mod_lund_rescale_mean_velocity [0, 1] [0, 1] [3, 5] 2 1 [0, 1] [0, 1]
      4 7 7 1 (fun _ => 1 / 2) 1 = ([3, 5] : List ℚ).getD 1 0 :=
  ⟨by norm_num, rfl,
    rescale_identity_on_matching_grids [0, 1] [0, 1] [3, 5] 2 1 4 7 7
      (fun _ => 1 / 2) 1 (by norm_num) rfl
      (by norm_num) (by norm_num) (by norm_num) (by norm_num)
      (by norm_num) (by norm_num)⟩

/-! ## The nInfl count of the rescaling driver -/

/-- Lines 172-175 of runModLundRescaling.py: the loop accumulating
nInfl counts inflow points whose coordinate is at or below the given
bound. -/
def nInflCount : List ℚ → ℚ → Nat
  | [], _ => 0
  | e :: rest, b => (if e ≤ b then 1 else 0) + nInflCount rest b

/-- Line 164 of runModLundRescaling.py: etaPrec = yPrec, the
unnormalised precursor wall-normal coordinate (the normalisation
etaPrec = yPrec / deltaPrec of line 163 is commented out). -/
def etaPrecDriver (yPrec : List ℚ) : List ℚ := yPrec

/-- The value nInfl computed by the driver: the count of inflow points
with etaInfl[i] <= etaPrec[-1], where etaPrec = yPrec. -/
def nInflDriver (yPrec etaInfl : List ℚ) : Nat :=
  nInflCount etaInfl ((etaPrecDriver yPrec).getLastD 0)

/-- Modelled from the spec: the helper delta_99 of the eddylicious
package, absent from src/ — the walk over the profile locating the
first point at or above the target velocity, with linear interpolation
between the bracketing points. -/
def delta99At : List (ℚ × ℚ) → ℚ → ℚ
  | [], _ => 0
  | [pair], _ => pair.1
  | p :: q :: rest, t =>
    if t ≤ p.2 then p.1
    else if t ≤ q.2 then p.1 + (t - p.2) * (q.1 - p.1) / (q.2 - p.2)
    else delta99At (q :: rest) t

/-- Maximum of a list of rationals, 0 for the empty list. -/
def listMax : List ℚ → ℚ
  | [] => 0
  | [a] => a
  | a :: b :: rest => max a (listMax (b :: rest))

/-- Modelled from the spec: delta_99, absent from src/ — the coordinate
at which the profile first reaches 99 percent of its maximum value, via
linear interpolation between the two bracketing points. -/
def delta_99 (y u : List ℚ) : ℚ :=
  delta99At (y.zip u) ((99 / 100) * listMax u)

/-- Statement of the counting rule of claim C4, written from the words of
the claim itself for comparison with the driver: the precursor outer-scaled
coordinate is the wall-normal coordinate normalised by the precursor
boundary-layer thickness deltaPrec, so the claimed nInfl counts inflow
points with etaInfl[k] <= yPrec[-1] / deltaPrec. -/
def nInflClaimed (yPrec : List ℚ) (deltaPrec : ℚ) (etaInfl : List ℚ) : Nat :=
  nInflCount etaInfl (yPrec.getLastD 0 / deltaPrec)

/-- C4 counterexample: for the precursor grid yPrec = [0, 1, 2] with
mean profile [0, 2, 2] the boundary-layer thickness delta_99 is 0.99,
so for the single inflow point etaInfl = [2.01] the claimed count
(bound yPrec[-1] / deltaPrec = 200/99) is 1, while the driver counts
against the unnormalised bound yPrec[-1] = 2 and returns 0. -/
theorem nInfl_normalisation_cex :
    delta_99 [0, 1, 2] [0, 2, 2] = 99 / 100 ∧
    nInflClaimed [0, 1, 2] (delta_99 [0, 1, 2] [0, 2, 2]) [201 / 100] = 1 ∧
    nInflDriver [0, 1, 2] [201 / 100] = 0 := by
  have hdelta : delta_99 [0, 1, 2] [0, 2, 2] = 99 / 100 := by
    norm_num [delta_99, delta99At, listMax, List.zip]
  refine ⟨hdelta, ?_, ?_⟩
  · rw [nInflClaimed, hdelta]
    norm_num [nInflCount]
  · norm_num [nInflDriver, nInflCount, etaPrecDriver]

theorem nInflCount_eq_card (l : List ℚ) (b : ℚ) :
    nInflCount l b =
      ((Finset.range l.length).filter (fun i => l.getD i 0 ≤ b)).card := by
  induction l with
  | nil => simp [nInflCount]
  | cons e rest ih =>
    rw [Finset.card_filter, List.length_cons, Finset.sum_range_succ']
    simp only [List.getD_cons_succ, List.getD_cons_zero]
    rw [← Finset.card_filter]
    rw [nInflCount, ih]
    omega

/-- C4 (amended): in the driver, nInfl equals the number of inflow
indices whose coordinate etaInfl[i] lies at or below the last entry of
etaPrec = yPrec, the unnormalised precursor wall-normal coordinate
(line 164 drops the normalisation by deltaPrec); and, provided
nInner <= nInfl, every inflow index at or beyond nInfl receives the
freestream value Ue directly. -/
theorem nInfl_unnormalised_count_and_freestream
    (yPrec etaInfl yPlusPrec uMean yPlusInfl : List ℚ)
    (nInner nZ : Nat) (Ue U0 gamma : ℚ) (w : Nat → ℚ) (k : Nat)
    (hInner : nInner ≤ nInflDriver yPrec etaInfl)
    (hk : nInflDriver yPrec etaInfl ≤ k) :
    nInflDriver yPrec etaInfl =
      ((Finset.range etaInfl.length).filter
        (fun i => etaInfl.getD i 0 ≤ yPrec.getLastD 0)).card ∧
    mod_lund_rescale_mean_velocity (etaPrecDriver yPrec) yPlusPrec uMean
      (nInflDriver yPrec etaInfl) nInner etaInfl yPlusInfl nZ
      Ue U0 gamma w k = Ue := by
  constructor
  · exact nInflCount_eq_card etaInfl (yPrec.getLastD 0)
  · unfold mod_lund_rescale_mean_velocity
    rw [if_neg (by omega), if_neg (by omega)]

/-- C4 witness: the amended statement instantiated on the precursor
grid [0, 1, 2] and the inflow coordinates [1, 3], whose nInfl is 1. -/
theorem nInfl_unnormalised_count_and_freestream_witness :
    (0 ≤ nInflDriver [0, 1, 2] [1, 3] ∧ nInflDriver [0, 1, 2] [1, 3] ≤ 1) ∧
    (nInflDriver [0, 1, 2] [1, 3] =
      ((Finset.range ([1, 3] : List ℚ).length).filter
        (fun i => ([1, 3] : List ℚ).getD i 0 ≤
          ([0, 1, 2] : List ℚ).getLastD 0)).card ∧
    mod_lund_rescale_mean_velocity (etaPrecDriver [0, 1, 2]) [0, 1] [4, 5]
      (nInflDriver [0, 1, 2] [1, 3]) 0 [1, 3] [0, 1] 6 9 9 1
      (fun _ => 1 / 2) 1 = 9) :=
  ⟨⟨Nat.zero_le _, by norm_num [nInflDriver, nInflCount, etaPrecDriver]⟩,
    nInfl_unnormalised_count_and_freestream [0, 1, 2] [1, 3] [0, 1] [4, 5]
      [0, 1] 0 6 9 9 1 (fun _ => 1 / 2) 1 (Nat.zero_le _)
      (by norm_num [nInflDriver, nInflCount, etaPrecDriver])⟩

/-! ## Time-step count and time labels of the rescaling driver -/

/-- Truncating conversion from rational to integer, as the Python int()
applied to a float value: truncation toward zero. -/
def pyInt (q : ℚ) : Int := if 0 ≤ q then ⌊q⌋ else ⌈q⌉

/-- Line 193 of runModLundRescaling.py: size = int((tEnd - t0)/dt + 1),
the number of output time-steps. -/
def driverSize (t0 dt tEnd : ℚ) : Int := pyInt ((tEnd - t0) / dt + 1)

/-- Decimal rendering of a natural number, padded on the left with
zeros to the given width. -/
def padZeros (n width : Nat) : String :=
  String.mk (List.replicate (width - (toString n).length) (Char.ofNat 48)) ++
    toString n

/-- Fixed-point decimal rendering of a nonnegative rational with the
given number of decimals, rounding half up: the shape of the time
labels formatted to tPrecision decimals. -/
def formatFixed (q : ℚ) (prec : Nat) : String :=
  let scaled : Int := ⌊q * (10 : ℚ) ^ prec + 1 / 2⌋
  toString (scaled.toNat / 10 ^ prec) ++ "." ++
    padZeros (scaled.toNat % 10 ^ prec) prec

/-- Modelled from the spec: the time loop of mod_lund_generate, absent
from src/ (only its call on lines 238-246 is).  The driver emits size
output time-steps; step i carries the time label t0 + i*dt formatted to
the configured precision (spec section 6: output written at the time
labels t0, t0+dt, ..., tEnd). -/
def generateTimeLabels (t0 dt : ℚ) (size prec : Nat) : List String :=
  (List.range size).map (fun i : Nat => formatFixed (t0 + (i : ℚ) * dt) prec)

/-- C9: when the time span tEnd - t0 is exactly k steps of size dt underbar 0,
the driver produces int((tEnd - t0)/dt + 1) = k + 1 output time-steps,
whose labels are t0 + i*dt for i = 0..k, starting at t0 and ending at
tEnd. -/
theorem driver_time_step_count_and_labels (t0 dt tEnd : ℚ) (k prec : Nat)
    (hdt : 0 < dt) (hspan : tEnd - t0 = k * dt) :
    driverSize t0 dt tEnd = (k : Int) + 1 ∧
    (generateTimeLabels t0 dt (k + 1) prec).length = k + 1 ∧
    (generateTimeLabels t0 dt (k + 1) prec).getD 0 "" = formatFixed t0 prec ∧
    (generateTimeLabels t0 dt (k + 1) prec).getD k "" = formatFixed tEnd prec ∧
    (∀ i, i < k + 1 → (generateTimeLabels t0 dt (k + 1) prec).getD i "" =
      formatFixed (t0 + i * dt) prec) := by
  have hlabel : ∀ i, i < k + 1 →
      (generateTimeLabels t0 dt (k + 1) prec).getD i "" =
        formatFixed (t0 + i * dt) prec := by
    intro i hi
    unfold generateTimeLabels
    exact map_range_getD (k + 1) i _ "" hi
  have hsize : driverSize t0 dt tEnd = (k : Int) + 1 := by
    unfold driverSize pyInt
    have hq : (tEnd - t0) / dt + 1 = ((k : ℚ) + 1) := by
      rw [hspan]
      field_simp
    rw [hq]
    have hpos : (0 : ℚ) ≤ (k : ℚ) + 1 := by positivity
    rw [if_pos hpos]
    have : ((k : ℚ) + 1) = ((k + 1 : ℤ) : ℚ) := by push_cast; ring
    rw [this, Int.floor_intCast]
  refine ⟨hsize, by unfold generateTimeLabels; simp, ?_, ?_, hlabel⟩
  · rw [hlabel 0 (by omega)]
    norm_num
  · rw [hlabel k (by omega)]
    have : t0 + (k : ℚ) * dt = tEnd := by linarith
    rw [this]

/-- C9 witness: the end-to-end scenario t0 = 0, dt = 0.01, tEnd = 0.02
with three decimals produces exactly 3 output time-steps labeled 0.000,
0.010 and 0.020. -/
theorem driver_time_step_count_and_labels_witness :
    (0 : ℚ) < 1 / 100 ∧ ((1 / 50 : ℚ) - 0 = (2 : ℕ) * (1 / 100)) ∧
    driverSize 0 (1 / 100) (1 / 50) = 3 ∧
    generateTimeLabels 0 (1 / 100) 3 3 = ["0.000", "0.010", "0.020"] := by
  have h := driver_time_step_count_and_labels 0 (1 / 100) (1 / 50) 2 3
    (by norm_num) (by push_cast; norm_num)
  refine ⟨by norm_num, by push_cast; norm_num, ?_, ?_⟩
  · rw [h.1]
    norm_num
  · rw [show generateTimeLabels 0 (1 / 100) 3 3 =
      [formatFixed (0 + (0 : ℕ) * (1 / 100)) 3,
       formatFixed (0 + (1 : ℕ) * (1 / 100)) 3,
       formatFixed (0 + (2 : ℕ) * (1 / 100)) 3] from rfl]
    have e0 : formatFixed (0 + (0 : ℕ) * (1 / 100)) 3 = "0.000" := by
      rw [show ((0 : ℚ) + (0 : ℕ) * (1 / 100)) = 0 by push_cast; ring]
      rw [formatFixed]
      rw [show (⌊(0 : ℚ) * (10 : ℚ) ^ 3 + 1 / 2⌋ : ℤ) = 0 by
        rw [Int.floor_eq_iff]
        norm_num]
      decide
    have e1 : formatFixed (0 + (1 : ℕ) * (1 / 100)) 3 = "0.010" := by
      rw [show ((0 : ℚ) + (1 : ℕ) * (1 / 100)) = 1 / 100 by push_cast; ring]
      rw [formatFixed]
      rw [show (⌊(1 / 100 : ℚ) * (10 : ℚ) ^ 3 + 1 / 2⌋ : ℤ) = 10 by
        rw [Int.floor_eq_iff]
        norm_num]
      decide
    have e2 : formatFixed (0 + (2 : ℕ) * (1 / 100)) 3 = "0.020" := by
      rw [show ((0 : ℚ) + (2 : ℕ) * (1 / 100)) = 1 / 50 by push_cast; ring]
      rw [formatFixed]
      rw [show (⌊(1 / 50 : ℚ) * (10 : ℚ) ^ 3 + 1 / 2⌋ : ℤ) = 20 by
        rw [Int.floor_eq_iff]
        norm_num]
      decide
    rw [e0, e1, e2]

/-! ## HDF5 archive layouts of the two entry points -/

/-- Entries of an HDF5 archive: groups and datasets addressed by path,
with datasets carrying their shape. -/
inductive H5Entry where
  | group : List String → H5Entry
  | dataset : List String → List Nat → H5Entry
deriving DecidableEq

/-- Abstract HDF5 archive: its entries plus integer root attributes. -/
structure H5File where
  entries : List H5Entry
  attrs : List (String × Nat)

/-- Whether the archive contains a group at the given path. -/
def hasGroup (f : H5File) (path : List String) : Bool :=
  f.entries.contains (H5Entry.group path)

/-- Whether the archive contains a dataset at the given path, of any
shape. -/
def hasDataset (f : H5File) (path : List String) : Bool :=
  f.entries.any (fun e =>
    match e with
    | H5Entry.dataset p _ => p == path
    | H5Entry.group _ => false)

/-- Whether the archive contains a dataset at the given path with the
given shape. -/
def hasDatasetShaped (f : H5File) (path : List String)
    (shape : List Nat) : Bool :=
  f.entries.contains (H5Entry.dataset path shape)

/-- Whether the archive carries the given integer root attribute. -/
def attrEq (f : H5File) (key : String) (v : Nat) : Bool :=
  f.attrs.contains (key, v)

/-- Layout created by lines 95-122 of convertFoamFileToHDF5.py for a
grid of nY by nZ points, nT time-steps, and a mean-profile file of the
given number of rows: groups points and velocity with their datasets,
the pre-sized fluctuation datasets, and the root attributes. -/
def converterArchive (nY nZ nT rows : Nat) : H5File where
  entries := [H5Entry.group ["points"],
    H5Entry.group ["velocity"],
    H5Entry.dataset ["points", "pointsY"] [nY, nZ],
    H5Entry.dataset ["points", "pointsZ"] [nY, nZ],
    H5Entry.dataset ["velocity", "uMeanX"] [rows],
    H5Entry.dataset ["velocity", "uMeanY"] [rows],
    H5Entry.dataset ["velocity", "times"] [nT],
    H5Entry.dataset ["velocity", "uX"] [nT, nY, nZ],
    H5Entry.dataset ["velocity", "uY"] [nT, nY, nZ],
    H5Entry.dataset ["velocity", "uZ"] [nT, nY, nZ]]
  attrs := [("nPointsY", nY), ("nPointsZ", nZ), ("nPoints", nY * nZ)]

/-- Modelled from the spec: write_points_to_hdf5, absent from src/
(only its call on line 213 is) — it stores the inflow grid as a points
group holding the pointsY and pointsZ datasets. -/
def writePointsToHdf5Entries (nY nZ : Nat) : List H5Entry :=
  [H5Entry.group ["points"],
   H5Entry.dataset ["points", "pointsY"] [nY, nZ],
   H5Entry.dataset ["points", "pointsZ"] [nY, nZ]]

/-- Layout of the archive created by lines 206-219 of
runModLundRescaling.py when the writer is hdf5: the points written by
write_points_to_hdf5 plus two root-level datasets, time of shape
(size, 1) and velocity of shape (size, nPoints, 3), where
nPoints = pointsZInfl.size = nY * nZ. -/
def driverArchive (size nY nZ : Nat) : H5File where
  entries := writePointsToHdf5Entries nY nZ ++
    [H5Entry.dataset ["time"] [size, 1],
     H5Entry.dataset ["velocity"] [size, nY * nZ, 3]]
  attrs := []

/-- Statement of the archive structure required by claim C6, written from
the words of the claim itself for comparison with the layouts the two scripts
create: points and velocity groups with the named datasets, the
fluctuation datasets shaped (nTimes, nPointsY, nPointsZ), and the three
root attributes. -/
def claimedArchiveStructure (f : H5File) (nY nZ nT : Nat) : Bool :=
  hasGroup f ["points"] && hasDataset f ["points", "pointsY"] &&
  hasDataset f ["points", "pointsZ"] && hasGroup f ["velocity"] &&
  hasDataset f ["velocity", "uMeanX"] &&
  hasDataset f ["velocity", "uMeanY"] &&
  hasDataset f ["velocity", "times"] &&
  hasDatasetShaped f ["velocity", "uX"] [nT, nY, nZ] &&
  hasDatasetShaped f ["velocity", "uY"] [nT, nY, nZ] &&
  hasDatasetShaped f ["velocity", "uZ"] [nT, nY, nZ] &&
  attrEq f "nPointsY" nY && attrEq f "nPointsZ" nZ &&
  attrEq f "nPoints" (nY * nZ)

/-- C6 counterexample: the archive the rescaling driver creates for the
hdf5 writer (here with 3 time-steps on a 2 by 4 grid) does not have the
claimed structure: velocity is a root-level dataset, not a group, and
none of the uMeanX, uMeanY, times, uX, uY, uZ datasets exist. -/
theorem driver_archive_lacks_claimed_structure :
    claimedArchiveStructure (driverArchive 3 2 4) 2 4 3 = false ∧
    hasGroup (driverArchive 3 2 4) ["velocity"] = false ∧
    hasDataset (driverArchive 3 2 4) ["velocity", "uX"] = false := by
  decide

/-- C6 (amended): the layout coded in the converter (lines 95-122)
matches the claimed structure exactly, while the archive of the
rescaling driver with the hdf5 writer contains the points group with
pointsY and pointsZ plus root-level datasets time, shaped (size, 1),
and velocity, shaped (size, nPoints, 3), with no velocity group. -/
theorem archive_layouts (nY nZ nT rows size : Nat) :
    claimedArchiveStructure (converterArchive nY nZ nT rows) nY nZ nT = true ∧
    hasGroup (driverArchive size nY nZ) ["points"] = true ∧
    hasDatasetShaped (driverArchive size nY nZ) ["points", "pointsY"]
      [nY, nZ] = true ∧
    hasDatasetShaped (driverArchive size nY nZ) ["points", "pointsZ"]
      [nY, nZ] = true ∧
    hasDatasetShaped (driverArchive size nY nZ) ["time"] [size, 1] = true ∧
    hasDatasetShaped (driverArchive size nY nZ) ["velocity"]
      [size, nY * nZ, 3] = true ∧
    hasGroup (driverArchive size nY nZ) ["velocity"] = false ∧
    hasDataset (driverArchive size nY nZ) ["velocity", "uX"] = false := by
  refine ⟨?_, ?_, ?_, ?_, ?_, ?_, ?_, ?_⟩ <;>
    simp [claimedArchiveStructure, converterArchive, driverArchive,
      writePointsToHdf5Entries, hasGroup, hasDataset, hasDatasetShaped,
      attrEq, List.contains, List.any]
